import Mathlib

/-!
Verification of the wiggy autonomous-coding-loop core against its
specification.  The development shallowly embeds, from the TypeScript
sources:

* the PRD (task list) data model, its markdown parser `parseMarkdownPrd`
  and serializer `prdToMarkdown`, and the mutation/query operations
  (`markItemComplete`, `markCriterionComplete`, `markItemWorking`,
  `getWorkingItem`, `markWorkingItemComplete`,
  `markItemCompleteByDescription`, `getIncompleteItems`,
  `getItemsByPriority`, `isPrdComplete`);
* the back-pressure (quality gate) engine: `parseBackPressureConfig`,
  `parseCommandsFromSection`, `inferCheckName`, `loadBackPressureConfig`,
  `getDefaultChecks`, `runAutoDetectedCheck`, `runBackPressureChecks`,
  with `executeCommand` modelled over an explicit environment mapping
  commands to subprocess outcomes;
* the per-iteration control flow of the main loop (`runRalph`), as an
  explicit state-transition function over the loop state.

JavaScript regular expressions used by the sources are hand-compiled to
character-list matchers with the same backtracking behaviour; JavaScript
string operations (`trim`, `toLowerCase`, `includes`, `split`) are
modelled on ASCII inputs.
-/

namespace Wiggy

/-- Whitespace as matched by the regex class backslash-s and by the
JavaScript `trim`, restricted to the ASCII range (every input considered
in this development is ASCII). -/
def isJsSpace (c : Char) : Bool :=
  c == ' ' || c == '\t' || c == '\n' || c == '\r' || c.val == 11 || c.val == 12

/-- Characters matched by the regex dot without the s flag: everything
except line terminators. -/
def isDotChar (c : Char) : Bool :=
  !(c == '\n' || c == '\r' || c.val == 0x2028 || c.val == 0x2029)

/-- `toLowerCase` on a character list (ASCII). -/
def lowerL (l : List Char) : List Char := l.map Char.toLower

/-- `toUpperCase` on a character list (ASCII). -/
def upperL (l : List Char) : List Char := l.map Char.toUpper

/-- JavaScript `String.prototype.trim` on a character list. -/
def trimL (l : List Char) : List Char :=
  ((l.dropWhile isJsSpace).reverse.dropWhile isJsSpace).reverse

/-- JavaScript `String.prototype.includes`: substring containment. -/
def hasSub : List Char → List Char → Bool
  | [], needle => needle.isEmpty
  | h :: t, needle => needle.isPrefixOf (h :: t) || hasSub t needle

/-- JavaScript `content.split('\n')` on a character list. -/
def splitNl : List Char → List (List Char)
  | [] => [[]]
  | c :: t =>
    match splitNl t with
    | [] => [[]]
    | h :: r => if c == '\n' then [] :: h :: r else (c :: h) :: r

/-- JavaScript `a || b` for strings: the empty string is falsy, and an
absent (undefined) field is falsy. -/
def jsOrString (x : Option String) (dflt : String) : String :=
  match x with
  | some s => if s = "" then dflt else s
  | none => dflt

/-- `toLowerCase` on strings. -/
def lowerStr (s : String) : String := String.mk (lowerL s.data)

/-- Case-insensitive containment test
`a.toLowerCase().includes(b.toLowerCase())`. -/
def containsCI (a b : String) : Bool := hasSub (lowerL a.data) (lowerL b.data)

/-! ## PRD data model (src/types.ts and src/prd.ts) -/

/-- `'high' | 'medium' | 'low'`. -/
inductive Priority
  | high
  | medium
  | low
deriving BEq, DecidableEq, Repr

instance : LawfulBEq Priority where
  eq_of_beq {a b} h := by
    cases a <;> cases b <;> first | rfl | exact absurd h (by decide)
  rfl {a} := by cases a <;> rfl

/-- `PrdItemStatus = 'pending' | 'working' | 'done'`. -/
inductive PrdItemStatus
  | pending
  | working
  | done
deriving BEq, DecidableEq, Repr

instance : LawfulBEq PrdItemStatus where
  eq_of_beq {a b} h := by
    cases a <;> cases b <;> first | rfl | exact absurd h (by decide)
  rfl {a} := by cases a <;> rfl

/-- `AcceptanceCriterion { description, done }`. -/
structure AcceptanceCriterion where
  description : String
  done : Bool
deriving BEq, DecidableEq, Repr

/-- `PrdItem` of the criteria-aware prd.ts module. -/
structure PrdItem where
  id : String
  category : String
  description : String
  requirements : List String
  acceptanceCriteria : List AcceptanceCriterion
  steps : List String
  priority : Priority
  passes : Bool
  status : PrdItemStatus
deriving BEq, DecidableEq, Repr

/-- `PrdJson { name, description?, items }`. -/
structure PrdJson where
  name : String
  description : Option String
  items : List PrdItem
deriving BEq, DecidableEq, Repr

/-! ## PRD mutation and query operations (src/prd.ts) -/

/-- The per-criterion update performed by `markItemComplete`:
`{ ...c, done: true }`. -/
def completeCriterion (c : AcceptanceCriterion) : AcceptanceCriterion :=
  { c with done := true }

/-- The per-item update performed by `markItemComplete` on the matched
item. -/
def completeItem (item : PrdItem) : PrdItem :=
  { item with
      passes := true
      status := .done
      acceptanceCriteria := item.acceptanceCriteria.map completeCriterion }

/-- `markItemComplete(prd, itemId)`. -/
def markItemComplete (prd : PrdJson) (itemId : String) : PrdJson :=
  { prd with
      items := prd.items.map fun item =>
        if item.id == itemId then completeItem item else item }

/-- `markCriterionComplete(prd, itemId, criterionDescription)`. -/
def markCriterionComplete (prd : PrdJson) (itemId : String)
    (criterionDescription : String) : PrdJson :=
  { prd with
      items := prd.items.map fun item =>
        if item.id == itemId then
          let updatedCriteria := item.acceptanceCriteria.map fun c =>
            if containsCI c.description criterionDescription then
              { c with done := true }
            else c
          let allDone := updatedCriteria.all (·.done)
          let anyDone := updatedCriteria.any (·.done)
          { item with
              acceptanceCriteria := updatedCriteria
              passes := allDone
              status :=
                if allDone then .done
                else if anyDone then .working
                else item.status }
        else item }

/-- `markItemWorking(prd, itemId)`. -/
def markItemWorking (prd : PrdJson) (itemId : String) : PrdJson :=
  { prd with
      items := prd.items.map fun item =>
        if item.id == itemId then { item with status := .working } else item }

/-- `getWorkingItem(prd)`: first item whose status is working. -/
def getWorkingItem (prd : PrdJson) : Option PrdItem :=
  prd.items.find? fun item => item.status == .working

/-- `markWorkingItemComplete(prd)`. -/
def markWorkingItemComplete (prd : PrdJson) : Option PrdJson :=
  match getWorkingItem prd with
  | none => none
  | some workingItem => some (markItemComplete prd workingItem.id)

/-- The exact-match predicate of `markItemCompleteByDescription`. -/
def exactMatchPred (description : String) (item : PrdItem) : Bool :=
  !item.passes && item.description == description

/-- The fuzzy-match predicate of `markItemCompleteByDescription`:
case-insensitive containment in either direction, among incomplete
items. -/
def fuzzyMatchPred (description : String) (item : PrdItem) : Bool :=
  !item.passes &&
    (containsCI item.description description ||
      containsCI description item.description)

/-- `markItemCompleteByDescription(prd, description)`. -/
def markItemCompleteByDescription (prd : PrdJson) (description : String) :
    Option PrdJson :=
  let matchedItem :=
    match prd.items.find? (exactMatchPred description) with
    | some it => some it
    | none => prd.items.find? (fuzzyMatchPred description)
  match matchedItem with
  | some it => some (markItemComplete prd it.id)
  | none => none

/-- `getIncompleteItems(prd)`: the items with `passes` false. -/
def getIncompleteItems (prd : PrdJson) : List PrdItem :=
  prd.items.filter fun item => !item.passes

/-- The record returned by `getItemsByPriority`. -/
structure PriorityBuckets where
  high : List PrdItem
  medium : List PrdItem
  low : List PrdItem
deriving BEq, DecidableEq, Repr

/-- `getItemsByPriority(prd)`: incomplete items bucketed by priority. -/
def getItemsByPriority (prd : PrdJson) : PriorityBuckets :=
  let incomplete := getIncompleteItems prd
  { high := incomplete.filter fun i => i.priority == .high
    medium := incomplete.filter fun i => i.priority == .medium
    low := incomplete.filter fun i => i.priority == .low }

/-- `isPrdComplete(prd)`. -/
def isPrdComplete (prd : PrdJson) : Bool :=
  prd.items.all fun item => item.passes

/-! ## Hand-compiled regex matchers for parseMarkdownPrd

Each matcher reproduces the backtracking behaviour of the corresponding
JavaScript regex on a single line (the input has already been split on
newlines, but lines may still contain carriage returns, which the regex
dot does not match). -/

/-- Tail matcher for a greedy `\s+` followed by `(.+)$`; returns the
captured group.  The recursion prefers the longest whitespace prefix and
backtracks one character at a time, exactly like the regex engine. -/
def wsPlusDot : List Char → Option (List Char)
  | [] => none
  | c :: t =>
    if isJsSpace c then
      match wsPlusDot t with
      | some g => some g
      | none => if !t.isEmpty && t.all isDotChar then some t else none
    else none

/-- Tail matcher for a greedy `\s*` followed by `(.+)$`; returns the
captured group. -/
def wsStarDot : List Char → Option (List Char)
  | [] => none
  | c :: t =>
    if isJsSpace c then
      match wsStarDot t with
      | some g => some g
      | none => if (c :: t).all isDotChar then some (c :: t) else none
    else if (c :: t).all isDotChar then some (c :: t) else none

/-- `^#\s+(.+)$` (the PRD title detector); returns the captured group. -/
def matchTitle : List Char → Option (List Char)
  | '#' :: rest => wsPlusDot rest
  | _ => none

/-- `(.+)$` at the current position. -/
def dotPlus (r : List Char) : Option (List Char) :=
  if !r.isEmpty && r.all isDotChar then some r else none

/-- The suffix `(?:Feature:\s*)?(.+)$` of the feature-heading regex.  The
optional group is case-sensitive; if taking it makes the rest fail, the
engine retries without it. -/
def featSuffix (r : List Char) : Option (List Char) :=
  if "Feature:".data.isPrefixOf r then
    match wsStarDot (r.drop 8) with
    | some g => some g
    | none => dotPlus r
  else dotPlus r

/-- The suffix `\s+(?:Feature:\s*)?(.+)$` of the feature-heading regex,
with a greedy backtracking `\s+`. -/
def featTail : List Char → Option (List Char)
  | [] => none
  | c :: t =>
    if isJsSpace c then
      match featTail t with
      | some g => some g
      | none => featSuffix t
    else none

/-- `^#{1,2}\s+(?:Feature:\s*)?(.+)$` (the feature-heading detector);
returns the captured group.  With two leading hashes the one-hash
alternative can never succeed (the second hash is not whitespace), so
only one attempt per shape is needed. -/
def matchFeature : List Char → Option (List Char)
  | '#' :: '#' :: rest => featTail rest
  | '#' :: rest => featTail rest
  | _ => none

/-- Strip a case-insensitive word from the front of a character list,
returning the remainder. -/
def stripCIWord : List Char → List Char → Option (List Char)
  | [], l => some l
  | _, [] => none
  | c :: w, d :: l =>
    if d.toLower == c.toLower then stripCIWord w l else none

/-- `^##\s*Requirements/i` as a prefix test. -/
def isReqHeading (l : List Char) : Bool :=
  match l with
  | '#' :: '#' :: r => (stripCIWord "requirements".data (r.dropWhile isJsSpace)).isSome
  | _ => false

/-- `^##\s*Acceptance\s*Criteria/i` as a prefix test. -/
def isAccHeading (l : List Char) : Bool :=
  match l with
  | '#' :: '#' :: r =>
    match stripCIWord "acceptance".data (r.dropWhile isJsSpace) with
    | some r2 => (stripCIWord "criteria".data (r2.dropWhile isJsSpace)).isSome
    | none => false
  | _ => false

/-- `^##\s*Steps/i` as a prefix test. -/
def isStepsHeading (l : List Char) : Bool :=
  match l with
  | '#' :: '#' :: r => (stripCIWord "steps".data (r.dropWhile isJsSpace)).isSome
  | _ => false

/-- `^[-*]\s+(.+)$` (plain bullet, used for Requirements and Steps);
returns the captured group. -/
def matchBullet : List Char → Option (List Char)
  | c :: r => if c == '-' || c == '*' then wsPlusDot r else none
  | [] => none

/-- `^[-*]\s*\[([ xX])\]\s*(.+)$` (acceptance-criterion checkbox);
returns the checkbox character and the captured text.  The `\s*` runs
cannot backtrack usefully because the following literal is never
whitespace. -/
def matchCriterion : List Char → Option (Char × List Char)
  | c0 :: r =>
    if c0 == '-' || c0 == '*' then
      match r.dropWhile isJsSpace with
      | '[' :: c :: ']' :: rest =>
        if c == ' ' || c == 'x' || c == 'X' then
          (wsStarDot rest).map fun g => (c, g)
        else none
      | _ => none
    else none
  | [] => none

/-- Can `\*?\*?\s*$` consume the whole remainder?  Used as the lazy-group
stopping test of the legacy task regex. -/
def tailStarsWs (s : List Char) : Bool :=
  s.all isJsSpace ||
    (match s with
     | '*' :: t =>
       t.all isJsSpace ||
         (match t with
          | '*' :: u => u.all isJsSpace
          | _ => false)
     | _ => false)

/-- The lazy group `(.+?)` of the legacy task regex: the shortest
non-empty prefix of dot characters whose remainder satisfies
`\*?\*?\s*$`. -/
def lazyGroup : List Char → Option (List Char)
  | [] => none
  | c :: t =>
    if isDotChar c then
      if tailStarsWs t then some [c]
      else (lazyGroup t).map fun g => c :: g
    else none

/-- `\*?\*?(.+?)\*?\*?\s*$`: up to two leading stars are consumed
greedily, backing off one at a time. -/
def starsGroup : List Char → Option (List Char)
  | '*' :: '*' :: t =>
    match lazyGroup t with
    | some g => some g
    | none =>
      match lazyGroup ('*' :: t) with
      | some g => some g
      | none => lazyGroup ('*' :: '*' :: t)
  | '*' :: t =>
    match lazyGroup t with
    | some g => some g
    | none => lazyGroup ('*' :: t)
  | r => lazyGroup r

/-- The suffix `\s*\*?\*?(.+?)\*?\*?\s*$` of the legacy task regex, with
a greedy backtracking leading `\s*`. -/
def taskTail : List Char → Option (List Char)
  | [] => none
  | c :: t =>
    if isJsSpace c then
      match taskTail t with
      | some g => some g
      | none => starsGroup (c :: t)
    else starsGroup (c :: t)

/-- The checkbox alternation `([ xX]|DONE|WORKING)\]` and what follows;
returns the captured checkbox content and the description group. -/
def matchCheckbox (u : List Char) : Option (String × List Char) :=
  match u with
  | c :: ']' :: rest =>
    if c == ' ' || c == 'x' || c == 'X' then
      (taskTail rest).map fun g => (String.mk [c], g)
    else
      if "DONE]".data.isPrefixOf u then
        (taskTail (u.drop 5)).map fun g => ("DONE", g)
      else if "WORKING]".data.isPrefixOf u then
        (taskTail (u.drop 8)).map fun g => ("WORKING", g)
      else none
  | _ =>
    if "DONE]".data.isPrefixOf u then
      (taskTail (u.drop 5)).map fun g => ("DONE", g)
    else if "WORKING]".data.isPrefixOf u then
      (taskTail (u.drop 8)).map fun g => ("WORKING", g)
    else none

/-- `^-\s*\[([ xX]|DONE|WORKING)\]\s*\*?\*?(.+?)\*?\*?\s*$` (legacy task
line); returns the checkbox content and the description group. -/
def matchTask : List Char → Option (String × List Char)
  | '-' :: r =>
    match r.dropWhile isJsSpace with
    | '[' :: u => matchCheckbox u
    | _ => none
  | _ => none

/-- `^\s+-\s+(.+)$` (legacy indented sub-item); returns the captured
group.  The leading `\s+` cannot usefully backtrack because the
following literal dash is not whitespace. -/
def matchIndentedDash (l : List Char) : Option (List Char) :=
  match l with
  | c :: _ =>
    if isJsSpace c then
      match l.dropWhile isJsSpace with
      | '-' :: r => wsPlusDot r
      | _ => none
    else none
  | [] => none

/-! ## parseMarkdownPrd (src/prd.ts) -/

/-- TypeScript `Partial<PrdItem>`: what the parser accumulates before
`normalizeItem` runs.  Both item-opening branches of the parser populate
every field, but the defaults in `normalizeItem` read absent fields, so
the partial shape is kept. -/
structure PartialPrdItem where
  id : Option String := none
  category : Option String := none
  description : Option String := none
  requirements : Option (List String) := none
  acceptanceCriteria : Option (List AcceptanceCriterion) := none
  steps : Option (List String) := none
  priority : Option Priority := none
  passes : Option Bool := none
  status : Option PrdItemStatus := none
deriving BEq, DecidableEq, Repr

/-- `deriveStatusFromCriteria(criteria)`. -/
def deriveStatusFromCriteria (criteria : List AcceptanceCriterion) :
    PrdItemStatus :=
  if criteria.length = 0 then .pending
  else
    let allDone := criteria.all (·.done)
    let anyDone := criteria.any (·.done)
    if allDone then .done
    else if anyDone then .working
    else .pending

/-- `normalizeItem(item, index)`.  `item.status || derive...` never takes
the derived branch when `status` is present, because every status string
is truthy. -/
def normalizeItem (item : PartialPrdItem) (index : Nat) : PrdItem :=
  let acceptanceCriteria := item.acceptanceCriteria.getD []
  let status :=
    match item.status with
    | some st => st
    | none => deriveStatusFromCriteria acceptanceCriteria
  let passes :=
    status == .done ||
      (decide (0 < acceptanceCriteria.length) &&
        acceptanceCriteria.all (·.done))
  { id := jsOrString item.id (toString (index + 1))
    category := jsOrString item.category "general"
    description := jsOrString item.description ""
    requirements := item.requirements.getD []
    acceptanceCriteria := acceptanceCriteria
    steps := item.steps.getD []
    priority := item.priority.getD .medium
    passes := passes
    status := status }

/-- `'none' | 'requirements' | 'acceptance' | 'steps'`. -/
inductive ParseSection
  | none
  | requirements
  | acceptance
  | steps
deriving BEq, DecidableEq, Repr

/-- The loop state of `parseMarkdownPrd` (the `prdDescription` local is
never assigned in the source and is omitted). -/
structure ParseState where
  items : List PrdItem
  currentPriority : Priority
  currentItem : Option PartialPrdItem
  itemIndex : Nat
  currentSection : ParseSection
  prdName : String
deriving BEq, DecidableEq, Repr

/-- `items.push(normalizeItem(currentItem, itemIndex++)); currentItem = null`. -/
def flushItem (st : ParseState) : ParseState :=
  match st.currentItem with
  | some it =>
    { st with
        items := st.items ++ [normalizeItem it st.itemIndex]
        itemIndex := st.itemIndex + 1
        currentItem := none }
  | none => st

/-- `.replace(/^Feature:\s*/i, '')` on a character list. -/
def stripFeatureColon (l : List Char) : List Char :=
  if "feature:".data.isPrefixOf (lowerL l) then
    (l.drop 8).dropWhile isJsSpace
  else l

/-- Legacy sub-item branch (converted to an acceptance criterion with
done = false). -/
def parseLineStep (st : ParseState) (line : List Char) : ParseState :=
  match matchIndentedDash line with
  | some g =>
    match st.currentItem, st.currentSection with
    | some it, .none =>
      { st with
          currentItem := some
            { it with
                acceptanceCriteria := some
                  (it.acceptanceCriteria.getD [] ++
                    [⟨String.mk (trimL g), false⟩]) } }
    | _, _ => st
  | none => st

/-- Legacy checkbox task branch. -/
def parseLineTask (st : ParseState) (line : List Char) : ParseState :=
  match matchTask line with
  | some (flag, g) =>
    let st := flushItem st
    let checkboxContent := String.mk (upperL (trimL flag.data))
    let status : PrdItemStatus :=
      if checkboxContent = "X" || checkboxContent = "DONE" then .done
      else if checkboxContent = "WORKING" then .working
      else .pending
    { st with
        currentItem := some
          { id := some (toString (st.itemIndex + 1))
            category := some "general"
            description := some (String.mk (trimL g))
            requirements := some []
            acceptanceCriteria := some []
            steps := some []
            priority := some st.currentPriority
            passes := some (status == .done)
            status := some status }
        currentSection := .none }
  | none => parseLineStep st line

/-- Section-content branches (Requirements bullets, Acceptance Criteria
checkboxes, Steps bullets); a non-matching line falls through to the
legacy task branch. -/
def parseLineContent (st : ParseState) (line : List Char) : ParseState :=
  match st.currentItem with
  | some it =>
    match st.currentSection with
    | .requirements =>
      match matchBullet line with
      | some g =>
        { st with
            currentItem := some
              { it with
                  requirements := some
                    (it.requirements.getD [] ++ [String.mk (trimL g)]) } }
      | none => parseLineTask st line
    | .acceptance =>
      match matchCriterion line with
      | some (flag, g) =>
        { st with
            currentItem := some
              { it with
                  acceptanceCriteria := some
                    (it.acceptanceCriteria.getD [] ++
                      [⟨String.mk (trimL g), flag.toLower == 'x'⟩]) } }
      | none => parseLineTask st line
    | .steps =>
      match matchBullet line with
      | some g =>
        { st with
            currentItem := some
              { it with
                  steps := some (it.steps.getD [] ++ [String.mk (trimL g)]) } }
      | none => parseLineTask st line
    | .none => parseLineTask st line
  | none => parseLineTask st line

/-- Section-heading branches (`## Requirements`, `## Acceptance
Criteria`, `## Steps`). -/
def parseLineSections (st : ParseState) (line : List Char) : ParseState :=
  if isReqHeading line then { st with currentSection := .requirements }
  else if isAccHeading line then { st with currentSection := .acceptance }
  else if isStepsHeading line then { st with currentSection := .steps }
  else parseLineContent st line

/-- Feature-heading branch: skipped when the line contains "priority";
exact "requirements" / "acceptance criteria" / "tasks" headings are
ignored; otherwise the previous item is flushed and a new one opened. -/
def parseLineFeature (st : ParseState) (line : List Char) : ParseState :=
  match matchFeature line with
  | some g =>
    if hasSub (lowerL line) "priority".data then parseLineSections st line
    else
      let headerLower := lowerL g
      if headerLower == "requirements".data ||
          headerLower == "acceptance criteria".data ||
          headerLower == "tasks".data then st
      else
        let st := flushItem st
        { st with
            currentItem := some
              { id := some (toString (st.itemIndex + 1))
                category := some "general"
                description := some (String.mk (stripFeatureColon (trimL g)))
                requirements := some []
                acceptanceCriteria := some []
                steps := some []
                priority := some st.currentPriority
                passes := some false
                status := some .pending }
            currentSection := .none }
  | none => parseLineSections st line

/-- Priority-heading branches: any line whose lowercase form contains
"high priority" / "medium priority" / "low priority" flushes the open
item and switches tier. -/
def parseLinePriority (st : ParseState) (line : List Char) : ParseState :=
  if hasSub (lowerL line) "high priority".data then
    let st := flushItem st
    { st with currentPriority := .high, currentSection := .none }
  else if hasSub (lowerL line) "medium priority".data then
    let st := flushItem st
    { st with currentPriority := .medium, currentSection := .none }
  else if hasSub (lowerL line) "low priority".data then
    let st := flushItem st
    { st with currentPriority := .low, currentSection := .none }
  else parseLineFeature st line

/-- One iteration of the parser loop, in the exact guard order of the
source: title, priority headings, feature heading, section headings,
section content, legacy task, legacy sub-item. -/
def parseLine (st : ParseState) (line : List Char) : ParseState :=
  match matchTitle line with
  | some g =>
    if "feature".data.isPrefixOf (lowerL g) then parseLinePriority st line
    else { st with prdName := String.mk (trimL g) }
  | none => parseLinePriority st line

/-- `parseMarkdownPrd(content)`. -/
def parseMarkdownPrd (content : String) : PrdJson :=
  let lines := splitNl content.data
  let s0 : ParseState :=
    { items := []
      currentPriority := .medium
      currentItem := none
      itemIndex := 0
      currentSection := .none
      prdName := "PRD" }
  let s := lines.foldl parseLine s0
  let items :=
    match s.currentItem with
    | some it => s.items ++ [normalizeItem it s.itemIndex]
    | none => s.items
  { name := s.prdName, description := none, items := items }

/-! ## prdToMarkdown (src/prd.ts) -/

/-- `priority.charAt(0).toUpperCase() + priority.slice(1)`. -/
def capFirst (s : String) : String :=
  match s.data with
  | [] => ""
  | c :: t => String.mk (c.toUpper :: t)

/-- The lowercase key of a priority tier, as used by the serializer. -/
def priorityKey : Priority → String
  | .high => "high"
  | .medium => "medium"
  | .low => "low"

/-- The lines the serializer emits for one item. -/
def itemLines (item : PrdItem) : List String :=
  let statusIndicator :=
    match item.status with
    | .done => "[DONE] "
    | .working => "[WORKING] "
    | .pending => ""
  (["# Feature: " ++ statusIndicator ++ item.description, ""]) ++
  (if 0 < item.requirements.length then
     ["## Requirements"] ++ item.requirements.map (fun req => "- " ++ req) ++ [""]
   else []) ++
  (if 0 < item.acceptanceCriteria.length then
     ["## Acceptance Criteria"] ++
       item.acceptanceCriteria.map (fun c =>
         "- " ++ (if c.done then "[x]" else "[ ]") ++ " " ++ c.description) ++
       [""]
   else []) ++
  (if item.acceptanceCriteria.length = 0 && 0 < item.steps.length then
     ["## Acceptance Criteria"] ++
       item.steps.map (fun step => "- [ ] " ++ step) ++ [""]
   else [])

/-- The lines the serializer emits for one priority tier. -/
def tierLines (prd : PrdJson) (p : Priority) : List String :=
  let its := prd.items.filter fun i => i.priority == p
  if its.length = 0 then []
  else
    ["## " ++ capFirst (priorityKey p) ++ " Priority", ""] ++
      (its.map itemLines).flatten

/-- `prdToMarkdown(prd)`. -/
def prdToMarkdown (prd : PrdJson) : String :=
  let nameLines := if prd.name ≠ "" then ["# " ++ prd.name, ""] else []
  let descLines :=
    match prd.description with
    | some d => if d ≠ "" then [d, ""] else []
    | none => []
  String.intercalate "\n"
    (nameLines ++ descLines ++
      tierLines prd .high ++ tierLines prd .medium ++ tierLines prd .low)

/-! ## Back-pressure engine (src/backpressure.ts, src/utils.ts)

Subprocess execution is modelled by an environment mapping each command
string to an outcome (exit with a code and captured streams, or a
timeout).  Wall-clock durations are display-only in the source (they
feed the summary strings and the `duration` fields, which no claim
constrains) and are modelled as zero. -/

/-- `BackPressureCheck { name, command, required }`. -/
structure BackPressureCheck where
  name : String
  command : String
  required : Bool
deriving BEq, DecidableEq, Repr

/-- One entry of `BackPressureResults.checks`. -/
structure CheckRunResult where
  name : String
  command : String
  passed : Bool
  output : String
  duration : Nat
deriving BEq, DecidableEq, Repr

/-- `BackPressureResults` (the human-readable `summary` string is
display-only and modelled as empty). -/
structure BackPressureResults where
  checks : List CheckRunResult
  allPassed : Bool
deriving BEq, DecidableEq, Repr

/-- Outcome of spawning a shell command: the process exits with a code
and captured stdout/stderr, or the wall-clock timeout fires first. -/
inductive ExecOutcome
  | exited (code : Int) (stdout stderr : String)
  | timedOut (stdout stderr : String)
deriving BEq, DecidableEq, Repr

/-- The execution environment: what each command does when spawned. -/
def ExecEnv := String → ExecOutcome

/-- `CommandResult` (src/types.ts): optional fields are `Option`s,
mirroring the TypeScript optionality. -/
structure CommandResult where
  success : Bool
  output : Option String := none
  error : Option String := none
  exitCode : Option Int := none
  stdout : Option String := none
  stderr : Option String := none
deriving BEq, DecidableEq, Repr

/-- `trim` on strings. -/
def strTrim (s : String) : String := String.mk (trimL s.data)

/-- `executeCommand(command, workingDir, timeout)` (src/utils.ts): exit
code 0 is success, any other exit code is failure with an error message,
and a timeout is failure with exit code -1.  The success-path `output`
message embeds an elapsed wall-clock duration, modelled as 0. -/
def executeCommand (env : ExecEnv) (command : String) (timeoutMs : Nat) :
    CommandResult :=
  match env command with
  | .timedOut so se =>
    { success := false
      error := some ("Command timed out after " ++ toString timeoutMs ++ "ms")
      stdout := some so
      stderr := some se
      exitCode := some (-1) }
  | .exited code so se =>
    if code = 0 then
      { success := true
        output := some "Command completed in 0ms"
        stdout := some (strTrim so)
        stderr := some (strTrim se)
        exitCode := some code }
    else
      { success := false
        error := some ("Command exited with code " ++ toString code)
        stdout := some (strTrim so)
        stderr := some (strTrim se)
        exitCode := some code }

/-- `inferCheckName(command)`. -/
def inferCheckName (command : String) : String :=
  let cmd := lowerStr command
  if hasSub cmd.data "test".data then "Test"
  else if hasSub cmd.data "lint".data || hasSub cmd.data "eslint".data ||
      hasSub cmd.data "clippy".data then "Lint"
  else if hasSub cmd.data "typecheck".data || hasSub cmd.data "tsc".data ||
      hasSub cmd.data "mypy".data || hasSub cmd.data "check".data then
    "Typecheck"
  else if hasSub cmd.data "build".data || hasSub cmd.data "compile".data then
    "Build"
  else if hasSub cmd.data "format".data || hasSub cmd.data "fmt".data then
    "Format"
  else String.mk (command.data.takeWhile fun c => !(c == ' '))

/-- Word characters of the regex class backslash-w. -/
def isWordChar (c : Char) : Bool :=
  ('a' ≤ c && c ≤ 'z') || ('A' ≤ c && c ≤ 'Z') ||
    ('0' ≤ c && c ≤ '9') || c == '_'

/-- `\s*:` after the captured name (the colon is not whitespace, so the
star cannot backtrack). -/
def stripColon (r : List Char) : Option (List Char) :=
  match r.dropWhile isJsSpace with
  | ':' :: t => some t
  | _ => none

/-- `[^`\n]+` at the current position (greedy; stops at a backtick). -/
def nonBacktickPlus (r : List Char) : Option (List Char) :=
  let g := r.takeWhile fun c => !(c == '`' || c == '\n')
  if g.isEmpty then none else some g

/-- The optional backtick and command group ``)`?([^`\n]+)`?`` of the
named-check regex: a leading backtick is consumed if the rest still
matches (when the character right after the backtick is another backtick
the with-backtick branch fails and, since `[^`\n]+` cannot start at a
backtick either, the whole position fails, matching the engine). -/
def grabCommand (r : List Char) : Option (List Char) :=
  match r with
  | '`' :: t =>
    (match nonBacktickPlus t with
     | some g => some g
     | none => nonBacktickPlus r)
  | _ => nonBacktickPlus r

/-- The suffix ``\s*`?([^`\n]+)`?`` after the colon of the named-check
regex, with a greedy backtracking `\s*`. -/
def commandTail : List Char → Option (List Char)
  | [] => none
  | c :: t =>
    if isJsSpace c then
      match commandTail t with
      | some g => some g
      | none => grabCommand (c :: t)
    else grabCommand (c :: t)

/-- The name group `(\w+(?:\s+\w+)?)` followed by `\s*:`, returning the
captured name and the remainder after the colon.  The two-word
alternative is tried first (greedy optional group); shrinking the `\w+`
runs can never help because the next literal is a colon. -/
def grabNameColon (r : List Char) : Option (List Char × List Char) :=
  let word1 := r.takeWhile isWordChar
  if word1.isEmpty then none
  else
    let r1 := r.drop word1.length
    let sp := r1.takeWhile isJsSpace
    let r2 := r1.drop sp.length
    let word2 := r2.takeWhile isWordChar
    let twoWord :=
      if sp.isEmpty || word2.isEmpty then none
      else
        match stripColon (r2.drop word2.length) with
        | some rest => some (word1 ++ sp ++ word2, rest)
        | none => none
    match twoWord with
    | some res => some res
    | none =>
      match stripColon r1 with
      | some rest => some (word1, rest)
      | none => none

/-- Pattern 1 of `parseCommandsFromSection`:
``^[-*]\s*(\w+(?:\s+\w+)?)\s*:\s*`?([^`\n]+)`?`` (the i flag is
irrelevant: no literal letters).  Returns name and command groups. -/
def matchNamedCheck (l : List Char) : Option (List Char × List Char) :=
  match l with
  | c0 :: r =>
    if c0 == '-' || c0 == '*' then
      match grabNameColon (r.dropWhile isJsSpace) with
      | some (name, rest) =>
        match commandTail rest with
        | some cmd => some (name, cmd)
        | none =>
          match grabCommand rest with
          | some cmd => some (name, cmd)
          | none => none
      | none => none
    else none
  | [] => none

/-- Pattern 2 of `parseCommandsFromSection`: ``^[-*]\s*`([^`]+)` ``
(requires a closing backtick).  Returns the command group. -/
def matchCommandOnly (l : List Char) : Option (List Char) :=
  match l with
  | c0 :: r =>
    if c0 == '-' || c0 == '*' then
      match r.dropWhile isJsSpace with
      | '`' :: t =>
        let g := t.takeWhile fun c => !(c == '`')
        if g.isEmpty then none
        else
          match t.drop g.length with
          | '`' :: _ => some g
          | _ => none
      | _ => none
    else none
  | [] => none

/-- One line of `parseCommandsFromSection`. -/
def parseCommandLine (defaultRequired : Bool) (line : List Char) :
    List BackPressureCheck :=
  if "<!--".data.isPrefixOf (trimL line) || (trimL line).isEmpty then []
  else
    match matchNamedCheck line with
    | some (nameG, cmdG) =>
      let name := String.mk (trimL nameG)
      let command := String.mk (trimL cmdG)
      let isOptional :=
        hasSub (lowerL line) "(optional)".data ||
          hasSub (lowerL line) "optional:".data
      [{ name := name, command := command,
         required := defaultRequired && !isOptional }]
    | none =>
      match matchCommandOnly line with
      | some cmdG =>
        let command := String.mk (trimL cmdG)
        [{ name := inferCheckName command, command := command,
           required := defaultRequired }]
      | none => []

/-- `parseCommandsFromSection(section, defaultRequired)`. -/
def parseCommandsFromSection (sectionText : String) (defaultRequired : Bool) :
    List BackPressureCheck :=
  ((splitNl sectionText.data).map (parseCommandLine defaultRequired)).flatten

/-- The lookahead `(?=\n##\s|\n#\s|$)` that delimits a section body. -/
def lookNextHeading (l : List Char) : Bool :=
  match l with
  | '\n' :: '#' :: '#' :: c :: _ => isJsSpace c
  | '\n' :: '#' :: c :: _ => isJsSpace c
  | _ => false

/-- The lazily-captured section body `([\s\S]*?)`: grows one character
at a time until the heading lookahead (or the end of input). -/
def sectionBody : List Char → List Char
  | [] => []
  | c :: t => if lookNextHeading (c :: t) then [] else c :: sectionBody t

/-- Attempt the section-heading regex
``##\s*W1\s*W2[^\n]*\n([\s\S]*?)(?=\n##\s|\n#\s|$)`` at the current
position (case-insensitive words); returns the captured body. -/
def matchSectionAt (w1 w2 : List Char) (l : List Char) :
    Option (List Char) :=
  match l with
  | '#' :: '#' :: r =>
    match stripCIWord w1 (r.dropWhile isJsSpace) with
    | some r1 =>
      match stripCIWord w2 (r1.dropWhile isJsSpace) with
      | some r2 =>
        match (r2.dropWhile fun c => !(c == '\n')) with
        | '\n' :: rest => some (sectionBody rest)
        | _ => none
      | none => none
    | none => none
  | _ => none

/-- Leftmost match of the section regex over the whole document. -/
def findSection (w1 w2 : List Char) : List Char → Option (List Char)
  | [] => none
  | c :: t =>
    match matchSectionAt w1 w2 (c :: t) with
    | some body => some body
    | none => findSection w1 w2 t

/-- `parseBackPressureConfig(agentsMdContent)`: the "Back pressure"
section, else the "Setup commands" section (non-required), else no
checks. -/
def parseBackPressureConfig (agentsMdContent : String) :
    List BackPressureCheck :=
  match findSection "back".data "pressure".data agentsMdContent.data with
  | some body => parseCommandsFromSection (String.mk body) true
  | none =>
    match findSection "setup".data "commands".data agentsMdContent.data with
    | some body => parseCommandsFromSection (String.mk body) false
    | none => []

/-- `getDefaultChecks()`. -/
def getDefaultChecks : List BackPressureCheck :=
  [{ name := "Typecheck", command := "AUTO_DETECT", required := true },
   { name := "Lint", command := "AUTO_DETECT", required := true },
   { name := "Test", command := "AUTO_DETECT", required := true }]

/-- `loadBackPressureConfig(workingDir)`: the AGENTS.md contents are
abstracted to an `Option String` covering both the missing-file and the
unreadable-file (caught exception) paths. -/
def loadBackPressureConfig (agentsMd : Option String) :
    List BackPressureCheck :=
  match agentsMd with
  | none => getDefaultChecks
  | some content =>
    let checks := parseBackPressureConfig content
    if checks.length = 0 then getDefaultChecks else checks

/-- Candidate commands tried by `runAutoDetectedCheck` for the typecheck
category. -/
def typecheckCommands : List String :=
  ["bun run typecheck", "pnpm typecheck", "npm run typecheck",
   "npx tsc --noEmit"]

/-- Candidate commands for the test category. -/
def testCommands : List String :=
  ["bun test", "pnpm test", "npm test"]

/-- Candidate commands for the lint category. -/
def lintCommands : List String :=
  ["bun run lint", "pnpm lint", "npm run lint", "npx eslint ."]

/-- The per-candidate loop of `runAutoDetectedCheck`: accept the first
result that succeeded or whose exit code differs from 127; if every
candidate is command-not-found, report success with the
nothing-configured message. -/
def tryCandidates (env : ExecEnv) (cmds : List String) (timeoutMs : Nat)
    (notConfiguredMsg : String) : CommandResult :=
  match cmds with
  | [] => { success := true, output := some notConfiguredMsg }
  | c :: rest =>
    let result := executeCommand env c timeoutMs
    if result.success || !(result.exitCode == some 127) then result
    else tryCandidates env rest timeoutMs notConfiguredMsg

/-- `runAutoDetectedCheck(checkName, workingDir)`. -/
def runAutoDetectedCheck (env : ExecEnv) (checkName : String) :
    CommandResult :=
  let lname := lowerStr checkName
  if lname = "typecheck" then
    tryCandidates env typecheckCommands 120000 "No type checking configured"
  else if lname = "test" || lname = "tests" then
    tryCandidates env testCommands 300000 "No tests configured"
  else if lname = "lint" then
    tryCandidates env lintCommands 120000 "No linting configured"
  else
    { success := true, output := some ("No auto-detection for " ++ checkName) }

/-- JavaScript `a || b || c` over optional strings with a string
default (empty strings and absent fields are falsy). -/
def jsOrStr3 (a b : Option String) (dflt : String) : String :=
  match a with
  | some s => if s = "" then jsOrString b dflt else s
  | none => jsOrString b dflt

/-- The per-check body of the `runBackPressureChecks` loop. -/
def runOneCheck (env : ExecEnv) (check : BackPressureCheck) :
    CheckRunResult :=
  let result :=
    if check.command = "AUTO_DETECT" then runAutoDetectedCheck env check.name
    else executeCommand env check.command 300000
  let passed := result.success
  { name := check.name
    command := check.command
    passed := passed
    output :=
      if result.success then jsOrStr3 result.stdout result.output "Passed"
      else jsOrStr3 result.stderr result.error "Failed"
    duration := 0 }

/-- `runBackPressureChecks(workingDir, checks)`: the sequential loop,
with `allPassed` cleared whenever a required check fails.  The checks
list is the one the caller supplies (or `loadBackPressureConfig` when
omitted, applied at the call site). -/
def runBackPressureChecks (env : ExecEnv)
    (checksToRun : List BackPressureCheck) : BackPressureResults :=
  let step := fun (acc : List CheckRunResult × Bool) (check : BackPressureCheck) =>
    let r := runOneCheck env check
    (acc.1 ++ [r], if check.required && !r.passed then false else acc.2)
  let final := checksToRun.foldl step ([], true)
  { checks := final.1, allPassed := final.2 }

/-! ## The iteration loop of runRalph (src/ralph.ts)

The keyboard listener runs concurrently with the loop, but all its
communication with the loop is through two sequentially-polled values:
the `pendingIntervention` variable (read and cleared only at the start
of an iteration, set only between iterations) and the intervention field
of the iteration result returned by `runIteration` (src/agent.ts), which
reports both an interrupt-triggered message (`wasInterrupted`) and a
message captured without an interrupt.  One pass of the `for` loop body
is therefore modelled as a pure transition on the loop state, taking the
iteration result as input.  Phase-1/phase-2 prompt construction is
abstracted to whether the pending intervention was folded into the
prompt (the fold appends the message to the progress summary and clears
the variable); git cleanliness checks and the auto-commit are orthogonal
to every claim and omitted. -/

/-- The fields of the result of `runIteration` that the loop consumes.
`taskDescription` is taken after the loop merges in the phase-1
selection (ralph.ts line 321). -/
structure IterationResult where
  success : Bool
  isComplete : Bool
  wasInterrupted : Bool
  taskDescription : Option String
  intervention : Option String
  error : Option String
deriving BEq, DecidableEq, Repr

/-- The loop state carried across iterations of `runRalph`. -/
structure LoopState where
  iteration : Nat
  pendingIntervention : Option String
  prd : Option PrdJson
  fileMode : Bool
  progressLog : List Nat
  isComplete : Bool
  lastError : Option String
  hitl : Bool
deriving BEq, DecidableEq, Repr

/-- Observable effects of one pass of the loop body. -/
structure IterEffects where
  promptFeedback : Option String
  recordedProgress : Bool
  markedTask : Option String
  halted : Bool
deriving BEq, DecidableEq, Repr

/-- `state.prd && isPrdComplete(state.prd)`. -/
def prdCompleteB (prd : Option PrdJson) : Bool :=
  match prd with
  | some p => isPrdComplete p
  | none => false

/-- One pass of the `for` loop body of `runRalph`, given the result the
agent invocation produced:

1. `state.iteration++` (line 185);
2. if the PRD is already complete, stop (lines 202-206);
3. fold any pending intervention into the prompt and clear it
   (lines 217-226);
4. run the iteration (abstracted to `r`);
5. if interrupted: store `r.intervention` (if any) as pending, undo the
   counter increment, record nothing, mark nothing, and retry
   (lines 326-340);
6. otherwise store `r.intervention` (if any) as pending for the next
   prompt (lines 343-350);
7. on success: append a progress entry (file mode), mark the reported
   task complete in the PRD by fuzzy description match, and stop if the
   completion marker was seen (lines 352-425);
8. on failure: record the error and stop unless HITL (lines 426-439). -/
def runLoopIter (s : LoopState) (r : IterationResult) :
    LoopState × IterEffects :=
  let iterNow := s.iteration + 1
  if prdCompleteB s.prd then
    ({ s with iteration := iterNow, isComplete := true },
     { promptFeedback := none
       recordedProgress := false
       markedTask := none
       halted := true })
  else
    let folded := s.pendingIntervention
    let pendingAfterFold : Option String := none
    if r.wasInterrupted then
      let pendingNext :=
        match r.intervention with
        | some m => some m
        | none => pendingAfterFold
      ({ s with
          iteration := iterNow - 1
          pendingIntervention := pendingNext },
       { promptFeedback := folded
         recordedProgress := false
         markedTask := none
         halted := false })
    else
      let pendingNext :=
        match r.intervention with
        | some m => some m
        | none => pendingAfterFold
      if r.success then
        let progressLog :=
          if s.fileMode then s.progressLog ++ [iterNow] else s.progressLog
        let marked :=
          match s.prd, r.taskDescription with
          | some p, some d => (markItemCompleteByDescription p d).map fun p' => (p', d)
          | _, _ => none
        let prdNext :=
          match marked with
          | some (p', _) => some p'
          | none => s.prd
        ({ s with
            iteration := iterNow
            pendingIntervention := pendingNext
            prd := prdNext
            progressLog := progressLog
            isComplete := r.isComplete },
         { promptFeedback := folded
           recordedProgress := s.fileMode
           markedTask := marked.map (·.2)
           halted := r.isComplete })
      else
        ({ s with
            iteration := iterNow
            pendingIntervention := pendingNext
            lastError := r.error },
         { promptFeedback := folded
           recordedProgress := false
           markedTask := none
           halted := !s.hitl })

/-! ## Concrete instances and auxiliary predicates used in the claims -/

/-- A document whose parse yields one done legacy task item. -/
def c1Doc : String := "- [x] Add login"

/-- A feature heading followed by the standard acceptance-criteria
sub-heading and a checkbox line. -/
def c2Doc : String := "# Feature: A\n## Acceptance Criteria\n- [x] C1"

/-- A parsed task list with a single zero-criteria pending item. -/
def c3Prd : PrdJson := parseMarkdownPrd "- [ ] T"

/-- A one-item task list with the single incomplete item "Add login". -/
def c4Prd1 : PrdJson :=
  ⟨"PRD", none,
   [⟨"1", "general", "Add login", [], [], [], .medium, false, .pending⟩]⟩

/-- A two-item task list with the incomplete items "Add login" and
"Add logout". -/
def c4Prd2 : PrdJson :=
  ⟨"PRD", none,
   [⟨"1", "general", "Add login", [], [], [], .medium, false, .pending⟩,
    ⟨"2", "general", "Add logout", [], [], [], .medium, false, .pending⟩]⟩

/-- Did the spawned command exit with code 127 (command not found)? -/
def exits127 (o : ExecOutcome) : Bool :=
  match o with
  | .exited code _ _ => code == 127
  | .timedOut _ _ => false

/-- The candidate-command list `runAutoDetectedCheck` iterates for a
given lowercased check name. -/
def categoryCandidates (lname : String) : List String :=
  if lname = "typecheck" then typecheckCommands
  else if lname = "test" || lname = "tests" then testCommands
  else if lname = "lint" then lintCommands
  else []

/-- The nothing-configured message `runAutoDetectedCheck` reports for a
given lowercased check name when every candidate is not found. -/
def notConfiguredMessage (lname : String) : String :=
  if lname = "typecheck" then "No type checking configured"
  else if lname = "test" || lname = "tests" then "No tests configured"
  else if lname = "lint" then "No linting configured"
  else ""

/-- An execution environment in which every command is not found. -/
def envAll127 : ExecEnv := fun _ => .exited 127 "" "command not found"

/-- The C7 scenario environment: `make build` succeeds, `make lint`
fails. -/
def c7Env : ExecEnv := fun cmd =>
  if cmd = "make build" then .exited 0 "build ok" ""
  else if cmd = "make lint" then .exited 1 "" "lint error"
  else .exited 127 "" ""

/-- The C7 scenario checks: a required Build check and an optional Lint
check. -/
def c7Checks : List BackPressureCheck :=
  [{ name := "Build", command := "make build", required := true },
   { name := "Lint", command := "make lint", required := false }]

/-- A reachable task list (legacy parse followed by a non-matching
criterion mark) containing an item with status done but passes false. -/
def c8Prd : PrdJson :=
  markCriterionComplete (parseMarkdownPrd "- [x] T\n  - s") "1" "zzz"

/-- A loop state with no task list, used to instantiate the C9
theorem. -/
def c9State : LoopState :=
  { iteration := 3, pendingIntervention := none, prd := none,
    fileMode := true, progressLog := [1, 2, 3], isComplete := false,
    lastError := none, hitl := false }

/-- An iteration result representing an actively interrupted attempt
with an operator message. -/
def c9Interrupted : IterationResult :=
  { success := false, isComplete := false, wasInterrupted := true,
    taskDescription := some "Iteration interrupted by user",
    intervention := some "use the staging database", error := none }

/-- An iteration result representing a completed attempt during which a
message was captured without an interrupt. -/
def c9Completed : IterationResult :=
  { success := true, isComplete := false, wasInterrupted := false,
    taskDescription := some "Task completed",
    intervention := some "prefer smaller commits", error := none }

/-- A plain successful iteration result with no intervention. -/
def c9Plain : IterationResult :=
  { success := true, isComplete := false, wasInterrupted := false,
    taskDescription := some "Task completed",
    intervention := none, error := none }

/-- A three-item task list whose second and third items are both
working, used to instantiate the C10 theorem. -/
def c10Prd : PrdJson :=
  ⟨"PRD", none,
   [⟨"1", "general", "Task A", [], [], [], .high, false, .pending⟩,
    ⟨"2", "general", "Task B", [], [⟨"crit", false⟩], [], .medium, false, .working⟩,
    ⟨"3", "general", "Task C", [], [], [], .low, false, .working⟩]⟩

/-! ## Helper lemmas -/

/-- Composing two filters is one filter over the conjunction. -/
theorem filter_filter_conj {α : Type} (p q : α → Bool) (l : List α) :
    (l.filter p).filter q = l.filter fun a => p a && q a := by
  induction l with
  | nil => rfl
  | cons a t ih =>
    by_cases hp : p a <;> by_cases hq : q a <;>
      simp [List.filter_cons, hp, hq, ih]

/-- Splitting a list into its three priority-filter buckets is a
permutation. -/
theorem filter_priority_perm (l : List PrdItem) :
    (l.filter (fun i => i.priority == .high) ++
      l.filter (fun i => i.priority == .medium) ++
      l.filter (fun i => i.priority == .low)).Perm l := by
  induction l with
  | nil => simp
  | cons x t ih =>
    cases hp : x.priority with
    | high =>
      have e1 : (x :: t).filter (fun i => i.priority == Priority.high) =
          x :: t.filter (fun i => i.priority == Priority.high) := by
        simp [List.filter_cons, hp]
      have e2 : (x :: t).filter (fun i => i.priority == Priority.medium) =
          t.filter (fun i => i.priority == Priority.medium) := by
        simp [List.filter_cons, hp]
      have e3 : (x :: t).filter (fun i => i.priority == Priority.low) =
          t.filter (fun i => i.priority == Priority.low) := by
        simp [List.filter_cons, hp]
      rw [e1, e2, e3, List.cons_append, List.cons_append]
      exact ih.cons x
    | medium =>
      have e1 : (x :: t).filter (fun i => i.priority == Priority.high) =
          t.filter (fun i => i.priority == Priority.high) := by
        simp [List.filter_cons, hp]
      have e2 : (x :: t).filter (fun i => i.priority == Priority.medium) =
          x :: t.filter (fun i => i.priority == Priority.medium) := by
        simp [List.filter_cons, hp]
      have e3 : (x :: t).filter (fun i => i.priority == Priority.low) =
          t.filter (fun i => i.priority == Priority.low) := by
        simp [List.filter_cons, hp]
      rw [e1, e2, e3]
      have eassoc :
          t.filter (fun i => i.priority == Priority.high) ++
              (x :: t.filter (fun i => i.priority == Priority.medium)) ++
              t.filter (fun i => i.priority == Priority.low) =
            t.filter (fun i => i.priority == Priority.high) ++
              x :: (t.filter (fun i => i.priority == Priority.medium) ++
                t.filter (fun i => i.priority == Priority.low)) := by
        simp [List.append_assoc]
      rw [eassoc]
      refine List.perm_middle.trans (List.Perm.cons x ?_)
      simpa [List.append_assoc] using ih
    | low =>
      have e1 : (x :: t).filter (fun i => i.priority == Priority.high) =
          t.filter (fun i => i.priority == Priority.high) := by
        simp [List.filter_cons, hp]
      have e2 : (x :: t).filter (fun i => i.priority == Priority.medium) =
          t.filter (fun i => i.priority == Priority.medium) := by
        simp [List.filter_cons, hp]
      have e3 : (x :: t).filter (fun i => i.priority == Priority.low) =
          x :: t.filter (fun i => i.priority == Priority.low) := by
        simp [List.filter_cons, hp]
      rw [e1, e2, e3]
      exact List.perm_middle.trans (List.Perm.cons x ih)

/-- `find?` over a split list whose left part contains no match. -/
theorem find?_append_first {α : Type} (p : α → Bool) (l₁ l₂ : List α)
    (w : α) (h₁ : ∀ x ∈ l₁, p x = false) (hw : p w = true) :
    (l₁ ++ w :: l₂).find? p = some w := by
  induction l₁ with
  | nil => simp [List.find?, hw]
  | cons a t ih =>
    have ha : p a = false := h₁ a (by simp)
    simp only [List.cons_append, List.find?]
    rw [ha]
    exact ih fun x hx => h₁ x (by simp [hx])

/-- The `markItemComplete` map leaves a list of items with different
ids unchanged. -/
theorem map_complete_skip (l : List PrdItem) (wid : String)
    (h : ∀ x ∈ l, x.id ≠ wid) :
    (l.map fun item => if item.id == wid then completeItem item else item)
      = l := by
  induction l with
  | nil => rfl
  | cons a t ih =>
    have ha : (a.id == wid) = false :=
      beq_eq_false_iff_ne.mpr (h a (by simp))
    simp only [List.map_cons, ha, Bool.false_eq_true, if_false]
    rw [ih fun x hx => h x (by simp [hx])]

/-- A working-status test is false exactly on non-working statuses. -/
theorem status_beq_working_false {s : PrdItemStatus}
    (h : s ≠ .working) : (s == PrdItemStatus.working) = false := by
  cases s with
  | pending => rfl
  | working => exact absurd rfl h
  | done => rfl

/-- If the spawned process exits 127, `executeCommand` reports failure
with exit code 127. -/
theorem executeCommand_of_exits127 (env : ExecEnv) (cmd : String)
    (t : Nat) (h : exits127 (env cmd) = true) :
    (executeCommand env cmd t).success = false ∧
      (executeCommand env cmd t).exitCode = some 127 := by
  unfold executeCommand
  cases henv : env cmd with
  | timedOut so se => simp [exits127, henv] at h
  | exited code so se =>
    have hc : code = 127 := by
      have := h
      rw [henv] at this
      simpa [exits127] using this
    subst hc
    simp

/-- If every candidate command is not found, the candidate loop reports
success with the nothing-configured message. -/
theorem tryCandidates_all127 (env : ExecEnv) (cmds : List String)
    (t : Nat) (msg : String) (h : ∀ c ∈ cmds, exits127 (env c) = true) :
    tryCandidates env cmds t msg =
      { success := true, output := some msg } := by
  induction cmds with
  | nil => rfl
  | cons c rest ih =>
    have hc := executeCommand_of_exits127 env c t (h c (by simp))
    have hrest := ih fun x hx => h x (by simp [hx])
    simp only [tryCandidates]
    rw [hc.1, hc.2]
    simp [hrest]

/-- The accumulated `allPassed` flag of the check loop equals the
conjunction, over all checks, of "not required or passed". -/
theorem runChecks_foldl_snd (env : ExecEnv) (l : List BackPressureCheck)
    (rs : List CheckRunResult) (b : Bool) :
    (l.foldl
        (fun (acc : List CheckRunResult × Bool) check =>
          let r := runOneCheck env check
          (acc.1 ++ [r], if check.required && !r.passed then false else acc.2))
        (rs, b)).2 =
      (b && l.all fun c => !c.required || (runOneCheck env c).passed) := by
  induction l generalizing rs b with
  | nil => simp
  | cons c t ih =>
    simp only [List.foldl_cons, List.all_cons]
    rw [ih]
    have hcond :
        (if c.required && !(runOneCheck env c).passed then false else b) =
          (b && (!c.required || (runOneCheck env c).passed)) := by
      cases hreq : c.required <;>
        cases hp : (runOneCheck env c).passed <;> simp [hreq, hp]
    rw [hcond, Bool.and_assoc]

/-- The recorded per-check results are the map of the per-check body
over the checks list. -/
theorem runChecks_foldl_fst (env : ExecEnv) (l : List BackPressureCheck)
    (rs : List CheckRunResult) (b : Bool) :
    (l.foldl
        (fun (acc : List CheckRunResult × Bool) check =>
          let r := runOneCheck env check
          (acc.1 ++ [r], if check.required && !r.passed then false else acc.2))
        (rs, b)).1 =
      rs ++ l.map (runOneCheck env) := by
  induction l generalizing rs b with
  | nil => simp
  | cons c t ih =>
    simp only [List.foldl_cons, List.map_cons]
    rw [ih]
    simp

/-- `allPassed` as a pointwise conjunction. -/
theorem allPassed_eq_all (env : ExecEnv) (checks : List BackPressureCheck) :
    (runBackPressureChecks env checks).allPassed =
      checks.all fun c => !c.required || (runOneCheck env c).passed := by
  unfold runBackPressureChecks
  simpa using runChecks_foldl_snd env checks [] true

/-- The recorded results of `runBackPressureChecks`. -/
theorem runChecks_results (env : ExecEnv) (checks : List BackPressureCheck) :
    (runBackPressureChecks env checks).checks =
      checks.map (runOneCheck env) := by
  unfold runBackPressureChecks
  simpa using runChecks_foldl_fst env checks [] true

/-- In a non-complete state, one loop pass folds exactly the pending
intervention into the prompt. -/
theorem runLoopIter_promptFeedback (s : LoopState) (r : IterationResult)
    (h : prdCompleteB s.prd = false) :
    (runLoopIter s r).2.promptFeedback = s.pendingIntervention := by
  cases hint : r.wasInterrupted <;> by_cases hs : r.success <;>
    simp [runLoopIter, h, hint, hs]

/-- In a non-complete state, the pending intervention after one loop
pass is exactly the intervention the iteration reported (the previous
one having been consumed by the fold). -/
theorem runLoopIter_pendingAfter (s : LoopState) (r : IterationResult)
    (h : prdCompleteB s.prd = false) :
    (runLoopIter s r).1.pendingIntervention = r.intervention := by
  cases hint : r.wasInterrupted <;> by_cases hs : r.success <;>
    cases hi : r.intervention <;>
    simp [runLoopIter, h, hint, hs, hi]

/--
C1.  The claimed round trip fails on the code: for the task list `L`
obtained by parsing "- [x] Add login" (one item, description
"Add login", status done), `parse(serialize(L))` yields an item whose
description is "[DONE] Add login" and whose status is pending with
passes false — the serializer emits the status tag inside the feature
heading and the parser neither strips nor interprets it.  Descriptions
and derived statuses are therefore not preserved, contradicting the
claim for items whose serialized feature headings carry a [DONE] tag.
-/
theorem c1_roundtrip_fails :
    (parseMarkdownPrd c1Doc).items.map
        (fun i => (i.description, i.status, i.passes)) =
      [("Add login", .done, true)] ∧
    (parseMarkdownPrd (prdToMarkdown (parseMarkdownPrd c1Doc))).items.map
        (fun i => (i.description, i.status, i.passes)) =
      [("[DONE] Add login", .pending, false)] := by
  constructor <;> rfl

/--
C2.  The claimed parse rule fails on the code: in the document
`# Feature: A` / `## Acceptance Criteria` / `- [x] C1`, the
sub-heading itself matches the feature-heading regex and is consumed by
the exact-header skip (`headerLower === 'acceptance criteria'`)
*before* the section-setting branch can run, so the acceptance section
is never entered.  The checkbox line then hits the legacy task branch:
it flushes the open feature item A (left with zero criteria) and opens
a new, separate task item "C1" — the opposite of the claimed
"appended as a criterion of that open feature item; such a line does
not flush the item or open a new task item".  This also contradicts
the format documented in the comment block above `parseMarkdownPrd`.
-/
theorem c2_criterion_not_appended :
    (parseMarkdownPrd c2Doc).items.map
        (fun i => (i.description, i.acceptanceCriteria, i.status)) =
      [("A", [], .pending), ("C1", [], .done)] := by
  rfl

/--
C3.  The claimed invariant fails on the code: `markCriterionComplete`
recomputes `allDone` as `updatedCriteria.every(...)`, which is
vacuously true on an empty criteria list, so marking any criterion of a
zero-criteria item sets its status to done and passes to true — yet the
claim (and `deriveStatusFromCriteria`, which returns pending for an
empty list but is unreachable from the parser because both item-opening
branches always pre-set `status`) says a zero-criteria item becomes
done only via the explicit mark-item-complete operation.
-/
theorem c3_zero_criteria_done :
    c3Prd.items.map (fun i => (i.status, i.passes, i.acceptanceCriteria)) =
      [(.pending, false, [])] ∧
    (markCriterionComplete c3Prd "1" "anything").items.map
        (fun i => (i.status, i.passes)) =
      [(.done, true)] ∧
    deriveStatusFromCriteria [] = .pending := by
  refine ⟨by rfl, by rfl, by rfl⟩

/--
C8 counterexample.  `getItemsByPriority` buckets by `passes`, not by
`status`: on the reachable task list `c8Prd` (parse a done legacy item
with an indented sub-step, then mark a criterion that matches nothing —
`markCriterionComplete` recomputes `passes := allDone = false` while
keeping `status = done`), the medium bucket returns an item whose
status is done, refuting "never returns a done item".
-/
theorem c8_counterexample :
    (getItemsByPriority c8Prd).medium.map (fun i => (i.status, i.passes)) =
      [(.done, false)] := by
  rfl

/--
C8 amended.  For every task list, `get-items-by-priority` returns only
items that have not yet passed (it never returns a passed item; the
claimed "never returns a done item" fails because an item can have
status done with passes false, see the counterexample); each bucket is
the priority filter of the incomplete (not-yet-passed) items of the
original list, preserving the original relative order within each tier,
and concatenating the high, medium, and low buckets yields exactly the
incomplete items up to this tier regrouping.
-/
theorem c8_buckets_partition_incomplete (prd : PrdJson) :
    (getItemsByPriority prd).high =
      prd.items.filter (fun i => !i.passes && i.priority == Priority.high) ∧
    (getItemsByPriority prd).medium =
      prd.items.filter (fun i => !i.passes && i.priority == Priority.medium) ∧
    (getItemsByPriority prd).low =
      prd.items.filter (fun i => !i.passes && i.priority == Priority.low) ∧
    ((getItemsByPriority prd).high ++ (getItemsByPriority prd).medium ++
        (getItemsByPriority prd).low).Perm (getIncompleteItems prd) ∧
    (∀ it, it ∈ (getItemsByPriority prd).high ++
        (getItemsByPriority prd).medium ++ (getItemsByPriority prd).low →
      it.passes = false) := by
  refine ⟨filter_filter_conj _ _ _, filter_filter_conj _ _ _,
    filter_filter_conj _ _ _, filter_priority_perm (getIncompleteItems prd),
    ?_⟩
  intro it hit
  have hmem : it ∈ getIncompleteItems prd := by
    rcases List.mem_append.mp hit with h | h
    · rcases List.mem_append.mp h with h' | h'
      · exact (List.mem_filter.mp h').1
      · exact (List.mem_filter.mp h').1
    · exact (List.mem_filter.mp h).1
  have := (List.mem_filter.mp hmem).2
  simpa using this

/-- Witness for the amended C8 theorem at a concrete task list. -/
theorem c8_buckets_partition_incomplete_witness :
    ((getItemsByPriority c10Prd).high ++ (getItemsByPriority c10Prd).medium ++
        (getItemsByPriority c10Prd).low).Perm (getIncompleteItems c10Prd) ∧
    (⟨"1", "general", "Task A", [], [], [], .high, false, .pending⟩ :
        PrdItem).passes = false :=
  ⟨(c8_buckets_partition_incomplete c10Prd).2.2.2.1,
   (c8_buckets_partition_incomplete c10Prd).2.2.2.2 _
     (List.mem_append_left _ (List.mem_append_left _
       (List.mem_cons_self _ _)))⟩

/--
C4.  `markItemCompleteByDescription` marks, among the items that have
not yet passed, the first exact description match if one exists,
otherwise the first case-insensitive containment match in either
direction, and returns null when neither exists; whenever some
incomplete item contains the given text case-insensitively, some item
is marked.  In particular, on `{"Add login"}` the text "add login"
matches, and on `{"Add login", "Add logout"}` the text "logout" marks
only the logout item.
-/
theorem c4_fuzzy_match :
    (∀ (prd : PrdJson) (text : String) (it : PrdItem),
      prd.items.find? (exactMatchPred text) = some it →
      markItemCompleteByDescription prd text =
        some (markItemComplete prd it.id)) ∧
    (∀ (prd : PrdJson) (text : String) (it : PrdItem),
      prd.items.find? (exactMatchPred text) = none →
      prd.items.find? (fuzzyMatchPred text) = some it →
      markItemCompleteByDescription prd text =
        some (markItemComplete prd it.id)) ∧
    (∀ (prd : PrdJson) (text : String),
      prd.items.find? (exactMatchPred text) = none →
      prd.items.find? (fuzzyMatchPred text) = none →
      markItemCompleteByDescription prd text = none) ∧
    (∀ (prd : PrdJson) (text : String),
      (∃ it ∈ prd.items, it.passes = false ∧
        containsCI it.description text = true) →
      (markItemCompleteByDescription prd text).isSome = true) ∧
    (markItemCompleteByDescription c4Prd1 "add login").map
        (fun p => p.items.map fun i => (i.description, i.status, i.passes)) =
      some [("Add login", .done, true)] ∧
    (markItemCompleteByDescription c4Prd2 "logout").map
        (fun p => p.items.map fun i => (i.description, i.status, i.passes)) =
      some [("Add login", .pending, false), ("Add logout", .done, true)] := by
  refine ⟨?_, ?_, ?_, ?_, by rfl, by rfl⟩
  · intro prd text it h
    simp [markItemCompleteByDescription, h]
  · intro prd text it h1 h2
    simp [markItemCompleteByDescription, h1, h2]
  · intro prd text h1 h2
    simp [markItemCompleteByDescription, h1, h2]
  · rintro prd text ⟨it, hmem, hp, hc⟩
    cases hexact : prd.items.find? (exactMatchPred text) with
    | some j => simp [markItemCompleteByDescription, hexact]
    | none =>
      cases hfuzzy : prd.items.find? (fuzzyMatchPred text) with
      | some j => simp [markItemCompleteByDescription, hexact, hfuzzy]
      | none =>
        exfalso
        apply List.find?_eq_none.mp hfuzzy it hmem
        simp [fuzzyMatchPred, hp, hc]

/-- Witness for the C4 theorem at concrete task lists. -/
theorem c4_fuzzy_match_witness :
    markItemCompleteByDescription c4Prd2 "Add login" =
      some (markItemComplete c4Prd2 "1") ∧
    (markItemCompleteByDescription c4Prd2 "logout").isSome = true :=
  ⟨c4_fuzzy_match.1 c4Prd2 "Add login"
      ⟨"1", "general", "Add login", [], [], [], .medium, false, .pending⟩
      (by rfl),
   c4_fuzzy_match.2.2.2.1 c4Prd2 "logout"
      ⟨⟨"2", "general", "Add logout", [], [], [], .medium, false, .pending⟩,
       List.mem_cons_of_mem _ (List.mem_cons_self _ _), rfl, rfl⟩⟩

/--
C5.  The quality-gate check loader falls back to exactly the three
default checks — Typecheck, Lint, Test, in that order, each with the
auto-detect sentinel command and required = true — when the
configuration document is missing or unreadable, and likewise when
extraction from its contents yields zero checks.
-/
theorem c5_default_fallback :
    loadBackPressureConfig none =
      [{ name := "Typecheck", command := "AUTO_DETECT", required := true },
       { name := "Lint", command := "AUTO_DETECT", required := true },
       { name := "Test", command := "AUTO_DETECT", required := true }] ∧
    (∀ content : String, parseBackPressureConfig content = [] →
      loadBackPressureConfig (some content) =
        [{ name := "Typecheck", command := "AUTO_DETECT", required := true },
         { name := "Lint", command := "AUTO_DETECT", required := true },
         { name := "Test", command := "AUTO_DETECT", required := true }]) := by
  refine ⟨rfl, ?_⟩
  intro content h
  simp [loadBackPressureConfig, h, getDefaultChecks]

/-- Witness for the C5 theorem at the empty configuration document. -/
theorem c5_default_fallback_witness :
    parseBackPressureConfig "" = [] ∧
    loadBackPressureConfig (some "") =
      [{ name := "Typecheck", command := "AUTO_DETECT", required := true },
       { name := "Lint", command := "AUTO_DETECT", required := true },
       { name := "Test", command := "AUTO_DETECT", required := true }] :=
  ⟨rfl, c5_default_fallback.2 "" rfl⟩

/--
C6.  For an auto-detected check of one of the recognized categories
(typecheck, test, tests, lint), if every candidate command of its
category exits with code 127 (command not found), the check reports
passed = true with the category-specific nothing-configured message,
and inserting such a check anywhere into a check list leaves the
aggregate allPassed unchanged — in particular it never makes it false.
-/
theorem c6_auto_detect_not_found :
    ∀ (env : ExecEnv) (checkName : String),
      (lowerStr checkName = "typecheck" ∨ lowerStr checkName = "test" ∨
        lowerStr checkName = "tests" ∨ lowerStr checkName = "lint") →
      (∀ cmd ∈ categoryCandidates (lowerStr checkName),
        exits127 (env cmd) = true) →
      (runAutoDetectedCheck env checkName).success = true ∧
      (runAutoDetectedCheck env checkName).output =
        some (notConfiguredMessage (lowerStr checkName)) ∧
      (∀ (pre post : List BackPressureCheck) (req : Bool),
        (runBackPressureChecks env
            (pre ++ ⟨checkName, "AUTO_DETECT", req⟩ :: post)).allPassed =
          (runBackPressureChecks env (pre ++ post)).allPassed) := by
  intro env checkName hcat hall
  have hrun : runAutoDetectedCheck env checkName =
      { success := true,
        output := some (notConfiguredMessage (lowerStr checkName)) } := by
    rcases hcat with h | h | h | h
    · have hc : ∀ cmd ∈ typecheckCommands, exits127 (env cmd) = true := by
        intro cmd hcmd
        apply hall
        simp [categoryCandidates, h, hcmd]
      simp only [runAutoDetectedCheck, h]
      rw [tryCandidates_all127 env _ _ _ hc]
      simp [notConfiguredMessage, h]
    · have hc : ∀ cmd ∈ testCommands, exits127 (env cmd) = true := by
        intro cmd hcmd
        apply hall
        simp [categoryCandidates, h, hcmd]
      simp only [runAutoDetectedCheck, h]
      rw [tryCandidates_all127 env _ _ _ hc]
      simp [notConfiguredMessage, h]
    · have hc : ∀ cmd ∈ testCommands, exits127 (env cmd) = true := by
        intro cmd hcmd
        apply hall
        simp [categoryCandidates, h, hcmd]
      simp only [runAutoDetectedCheck, h]
      rw [tryCandidates_all127 env _ _ _ hc]
      simp [notConfiguredMessage, h]
    · have hc : ∀ cmd ∈ lintCommands, exits127 (env cmd) = true := by
        intro cmd hcmd
        apply hall
        simp [categoryCandidates, h, hcmd]
      simp only [runAutoDetectedCheck, h]
      rw [tryCandidates_all127 env _ _ _ hc]
      simp [notConfiguredMessage, h]
  refine ⟨by simp [hrun], by simp [hrun], ?_⟩
  intro pre post req
  rw [allPassed_eq_all, allPassed_eq_all]
  simp only [List.all_append, List.all_cons]
  have hone :
      (runOneCheck env ⟨checkName, "AUTO_DETECT", req⟩).passed = true := by
    simp [runOneCheck, hrun]
  simp [hone]

/-- Witness for the C6 theorem: every command not found, a Lint
auto-detect check inserted after a required Build check. -/
theorem c6_auto_detect_not_found_witness :
    (runAutoDetectedCheck envAll127 "Lint").success = true ∧
    (runAutoDetectedCheck envAll127 "Lint").output =
      some "No linting configured" ∧
    (runBackPressureChecks envAll127
        [{ name := "Build", command := "true", required := true },
         { name := "Lint", command := "AUTO_DETECT", required := true }]).allPassed =
      (runBackPressureChecks envAll127
        [{ name := "Build", command := "true", required := true }]).allPassed := by
  have h := c6_auto_detect_not_found envAll127 "Lint"
    (by right; right; right; rfl) (by intro cmd hcmd; rfl)
  exact ⟨h.1, h.2.1, h.2.2
    [{ name := "Build", command := "true", required := true }] [] true⟩

/--
C7.  The aggregate allPassed of a quality-gate run is true exactly when
every check with required = true passed; a failing non-required check
never falsifies it.  In particular, for the scenario with a required
Build check `make build` (succeeding) and an optional Lint check
`make lint` (failing), allPassed is true while the Lint result is
recorded as failed.
-/
theorem c7_aggregate_required :
    (∀ (env : ExecEnv) (checks : List BackPressureCheck),
      (runBackPressureChecks env checks).checks =
        checks.map (runOneCheck env) ∧
      ((runBackPressureChecks env checks).allPassed = true ↔
        ∀ c ∈ checks, c.required = true →
          (runOneCheck env c).passed = true)) ∧
    (runBackPressureChecks c7Env c7Checks).allPassed = true ∧
    (runBackPressureChecks c7Env c7Checks).checks.map
        (fun r => (r.name, r.passed)) = [("Build", true), ("Lint", false)] := by
  refine ⟨?_, by rfl, by rfl⟩
  intro env checks
  refine ⟨runChecks_results env checks, ?_⟩
  rw [allPassed_eq_all, List.all_eq_true]
  constructor
  · intro h c hc hreq
    have := h c hc
    rw [hreq] at this
    simpa using this
  · intro h c hc
    by_cases hreq : c.required = true
    · simp [hreq, h c hc hreq]
    · simp [Bool.not_eq_true] at hreq
      simp [hreq]

/-- Witness for the C7 theorem: a single non-required failing check
still aggregates to true. -/
theorem c7_aggregate_required_witness :
    (runBackPressureChecks c7Env
        [{ name := "Lint", command := "make lint", required := false }]).allPassed =
      true := by
  apply ((c7_aggregate_required.1 c7Env
    [{ name := "Lint", command := "make lint", required := false }]).2).mpr
  intro c hc hreq
  rw [List.mem_singleton] at hc
  subst hc
  exact absurd hreq (by decide)

/--
C9.  In the loop model of runRalph: an actively interrupted iteration
leaves the iteration counter, progress log, and task list unchanged
(the same iteration is retried), records no progress entry, marks no
task done, and stores the operator message as the pending intervention;
an iteration that ran to completion stores a captured message as
pending, and the next loop pass folds exactly that message into its
prompt and clears it (consumed at most once: if the next iteration
reports no new intervention, nothing remains pending).
-/
theorem c9_intervention_ordering :
    ∀ (s : LoopState) (r : IterationResult),
      prdCompleteB s.prd = false →
      (r.wasInterrupted = true →
        (runLoopIter s r).1.iteration = s.iteration ∧
        (runLoopIter s r).2.recordedProgress = false ∧
        (runLoopIter s r).2.markedTask = none ∧
        (runLoopIter s r).1.progressLog = s.progressLog ∧
        (runLoopIter s r).1.prd = s.prd ∧
        (runLoopIter s r).1.pendingIntervention = r.intervention) ∧
      (∀ m : String, r.wasInterrupted = false → r.intervention = some m →
        (runLoopIter s r).1.pendingIntervention = some m ∧
        (∀ r2 : IterationResult,
          prdCompleteB (runLoopIter s r).1.prd = false →
          (runLoopIter (runLoopIter s r).1 r2).2.promptFeedback = some m ∧
          (r2.intervention = none →
            (runLoopIter (runLoopIter s r).1 r2).1.pendingIntervention =
              none))) := by
  intro s r hprd
  constructor
  · intro hint
    have hpend := runLoopIter_pendingAfter s r hprd
    refine ⟨?_, ?_, ?_, ?_, ?_, hpend⟩ <;> simp [runLoopIter, hprd, hint]
  · intro m hni hsome
    have hs1 : (runLoopIter s r).1.pendingIntervention = some m := by
      rw [runLoopIter_pendingAfter s r hprd, hsome]
    refine ⟨hs1, ?_⟩
    intro r2 hprd2
    refine ⟨?_, ?_⟩
    · rw [runLoopIter_promptFeedback _ r2 hprd2, hs1]
    · intro h2none
      rw [runLoopIter_pendingAfter _ r2 hprd2, h2none]

/-- Witness for the C9 theorem at concrete loop states and iteration
results. -/
theorem c9_intervention_ordering_witness :
    (runLoopIter c9State c9Interrupted).1.iteration = c9State.iteration ∧
    (runLoopIter c9State c9Interrupted).2.recordedProgress = false ∧
    (runLoopIter c9State c9Completed).1.pendingIntervention =
      some "prefer smaller commits" ∧
    (runLoopIter (runLoopIter c9State c9Completed).1 c9Plain).2.promptFeedback =
      some "prefer smaller commits" ∧
    (runLoopIter (runLoopIter c9State c9Completed).1
        c9Plain).1.pendingIntervention = none := by
  have h1 := c9_intervention_ordering c9State c9Interrupted (by rfl)
  have h2 := c9_intervention_ordering c9State c9Completed (by rfl)
  obtain ⟨hi1, hi2, -, -, -, -⟩ := h1.1 rfl
  obtain ⟨hp, hrest⟩ := h2.2 "prefer smaller commits" rfl rfl
  obtain ⟨hf, hn⟩ := hrest c9Plain (by rfl)
  exact ⟨hi1, hi2, hp, hf, hn rfl⟩

/--
C10.  When the task list splits as `l₁ ++ w :: l₂` with no working item
in `l₁`, `w` working, and no other item sharing the id of `w` (the
spec's id-uniqueness invariant), `markWorkingItemComplete` marks
exactly `w` — the first working item in list order — replacing it by
its completed form (status done, passes true, every acceptance
criterion done, all other fields unchanged) and leaving every other
item, including any later working items, unchanged; when no item is
working it returns null.
-/
theorem c10_mark_first_working :
    (∀ (name : String) (desc : Option String) (l₁ l₂ : List PrdItem)
        (w : PrdItem),
      (∀ x ∈ l₁, x.status ≠ .working) →
      w.status = .working →
      (∀ x ∈ l₁ ++ l₂, x.id ≠ w.id) →
      markWorkingItemComplete ⟨name, desc, l₁ ++ w :: l₂⟩ =
        some ⟨name, desc, l₁ ++ completeItem w :: l₂⟩) ∧
    (∀ w : PrdItem,
      (completeItem w).status = .done ∧ (completeItem w).passes = true ∧
      (completeItem w).acceptanceCriteria =
        (w.acceptanceCriteria.map fun c => ⟨c.description, true⟩) ∧
      (completeItem w).id = w.id ∧
      (completeItem w).description = w.description ∧
      (completeItem w).priority = w.priority) ∧
    (∀ prd : PrdJson, (∀ x ∈ prd.items, x.status ≠ .working) →
      markWorkingItemComplete prd = none) := by
  refine ⟨?_, ?_, ?_⟩
  · intro name desc l₁ l₂ w h₁ hw hid
    have hfind : (l₁ ++ w :: l₂).find?
        (fun item => item.status == PrdItemStatus.working) = some w :=
      find?_append_first _ _ _ _
        (fun x hx => status_beq_working_false (h₁ x hx))
        (by simp [hw])
    unfold markWorkingItemComplete getWorkingItem
    rw [hfind]
    show some (markItemComplete ⟨name, desc, l₁ ++ w :: l₂⟩ w.id) =
      some ⟨name, desc, l₁ ++ completeItem w :: l₂⟩
    unfold markItemComplete
    simp only [List.map_append, List.map_cons,
      map_complete_skip l₁ w.id
        (fun x hx => hid x (List.mem_append_left _ hx)),
      map_complete_skip l₂ w.id
        (fun x hx => hid x (List.mem_append_right _ hx))]
    simp
  · intro w
    exact ⟨rfl, rfl, rfl, rfl, rfl, rfl⟩
  · intro prd h
    have hnone : prd.items.find?
        (fun item => item.status == PrdItemStatus.working) = none :=
      List.find?_eq_none.mpr fun x hx => by
        simp [status_beq_working_false (h x hx)]
    simp [markWorkingItemComplete, getWorkingItem, hnone]

/-- Witness for the C10 theorem: two simultaneously working items; only
the first is completed. -/
theorem c10_mark_first_working_witness :
    markWorkingItemComplete c10Prd =
      some ⟨"PRD", none,
        [⟨"1", "general", "Task A", [], [], [], .high, false, .pending⟩,
         ⟨"2", "general", "Task B", [], [⟨"crit", true⟩], [], .medium, true,
           .done⟩,
         ⟨"3", "general", "Task C", [], [], [], .low, false, .working⟩]⟩ ∧
    markWorkingItemComplete ⟨"PRD", none, []⟩ = none := by
  constructor
  · exact c10_mark_first_working.1 "PRD" none
      [⟨"1", "general", "Task A", [], [], [], .high, false, .pending⟩]
      [⟨"3", "general", "Task C", [], [], [], .low, false, .working⟩]
      ⟨"2", "general", "Task B", [], [⟨"crit", false⟩], [], .medium, false,
        .working⟩
      (by
        intro x hx
        rw [List.mem_singleton] at hx
        subst hx
        decide)
      rfl
      (by
        intro x hx
        simp only [List.mem_append, List.mem_singleton] at hx
        rcases hx with h | h <;> subst h <;> decide)
  · exact c10_mark_first_working.2.2 ⟨"PRD", none, []⟩ (by simp)

end Wiggy
